import Mathlib

/-!
Shallow embedding of the HTTP fetch core of `Browrooms.py` (class `Website`):
URL parsing (via a model of CPython `urllib.parse.urlparse`), connection
setup (`Website.__init__`), request framing, the chunked read/decode loop
(`Website.get_html`), redirect resolution (`Website.handle_status`,
`Website.get_location`) and connection close (`Website.close`).

Python strings are modelled as Lean `String`s (operated on through their
`List Char`), raw socket bytes as `List Nat` (each `< 256`), and decoded
text as `List Nat` of Unicode code points (so that the replacement
character U+FFFD is an ordinary value).  Effects of the network are
supplied by an environment mapping each fetched URL to the behaviour of
the corresponding connection.
-/

namespace Browrooms

/-! ### Python string helpers (ASCII-faithful models of `str` methods) -/

/-- Occurrence of `pat` as a contiguous substring of the second list:
model of Python's `pat in hay` for strings. -/
def containsSub (pat : List Char) : List Char → Bool
  | [] => pat.isEmpty
  | c :: t => pat.isPrefixOf (c :: t) || containsSub pat t

/-- Model of Python `sub in s` for strings. -/
def pyContains (s sub : String) : Bool := containsSub sub.toList s.toList

/-- ASCII lowercasing of one character.  Models Python `str.lower` on the
ASCII range (the only range relevant to the header names and scheme
strings this program lowercases). -/
def asciiLower (c : Char) : Char :=
  if 'A' ≤ c ∧ c ≤ 'Z' then Char.ofNat (c.toNat + 32) else c

/-- Model of Python `str.lower` (ASCII range). -/
def pyLower (s : String) : String := String.mk (s.toList.map asciiLower)

/-- ASCII whitespace, as stripped by Python `str.strip()` (the unicode
whitespace beyond ASCII is not modelled). -/
def isPySpace (c : Char) : Bool :=
  c.toNat = 32 || c.toNat = 9 || c.toNat = 10 || c.toNat = 13 ||
  c.toNat = 11 || c.toNat = 12

/-- Strip `isPySpace` characters from both ends of a character list. -/
def stripList (l : List Char) : List Char :=
  ((l.dropWhile isPySpace).reverse.dropWhile isPySpace).reverse

/-- Model of Python `str.strip()` (ASCII whitespace). -/
def pyStrip (l : List Char) : String := String.mk (stripList l)

/-- Everything after the first occurrence of `sep`: models
`line.split(sep, 1)[1]`.  (The `[1]` access in the source is guarded by a
check that guarantees `sep` occurs, so the out-of-range exception of the
unguarded case is never reached; on a separator-free list this model
returns `[]`.) -/
def afterChar (sep : Char) : List Char → List Char
  | [] => []
  | c :: t => if c = sep then t else afterChar sep t

/-- Model of Python `str.split(sep)` for a one-character separator:
the list of maximal runs between occurrences of `sep`. -/
def splitOnChar (sep : Char) : List Char → List (List Char)
  | [] => [[]]
  | c :: t =>
    if c = sep then [] :: splitOnChar sep t
    else
      match splitOnChar sep t with
      | [] => [[c]]
      | g :: gs => (c :: g) :: gs

/-- ASCII decimal digit. -/
def isDigitC (c : Char) : Bool := 48 ≤ c.toNat && c.toNat ≤ 57

/-- Numeric value of an ASCII digit string. -/
def natOfDigits (l : List Char) : Nat :=
  l.foldl (fun a c => a * 10 + (c.toNat - 48)) 0

/-- Value of a nonempty all-digit character list, `none` otherwise. -/
def digitsVal (r : List Char) : Option Nat :=
  if r ≠ [] ∧ r.all isDigitC then some (natOfDigits r) else none

/-- Model of Python `int(s)` on decimal string literals: optional
surrounding whitespace, an optional sign, then ASCII digits; `none`
models the `ValueError` raised on any other text.  (Underscore digit
separators and non-ASCII digits accepted by CPython are not modelled;
no theorem below quantifies over them.) -/
def pyInt (l : List Char) : Option Int :=
  match stripList l with
  | '+' :: r => (digitsVal r).map (fun v => (v : Int))
  | '-' :: r => (digitsVal r).map (fun v => -(v : Int))
  | r => (digitsVal r).map (fun v => (v : Int))

/-! ### The three candidate decodings of `Website.get_html`

`data.decode('latin-1', errors='replace')` maps every byte `b` to the
code point `b`, and CPython's `ISO-8859-1` codec is the very same codec
as `latin-1`, so both are the identity on byte values.
`data.decode('utf-8', errors='replace')` replaces every maximal subpart
of an ill-formed sequence by one U+FFFD, per the Unicode recommendation
CPython implements. -/

/-- Latin-1 replace-decoding: each byte becomes the code point of the
same value (never a replacement character). -/
def decodeLatin1 (bs : List Nat) : List Nat := bs

/-- ISO-8859-1 replace-decoding: in CPython this name resolves to the
same codec as `latin-1`. -/
def decodeIso8859 (bs : List Nat) : List Nat := bs

/-- Is this byte a UTF-8 continuation byte (`0x80`–`0xBF`)? -/
def isCont (c : Nat) : Bool := 0x80 ≤ c && c ≤ 0xBF

/-- Admissible first continuation byte after the 3-byte lead `b`
(tight ranges excluding overlong forms and surrogates). -/
def cont3ok (b c : Nat) : Bool :=
  if b = 0xE0 then 0xA0 ≤ c && c ≤ 0xBF
  else if b = 0xED then 0x80 ≤ c && c ≤ 0x9F
  else isCont c

/-- Admissible first continuation byte after the 4-byte lead `b`
(tight ranges excluding overlong forms and values beyond U+10FFFF). -/
def cont4ok (b c : Nat) : Bool :=
  if b = 0xF0 then 0x90 ≤ c && c ≤ 0xBF
  else if b = 0xF4 then 0x80 ≤ c && c ≤ 0x8F
  else isCont c

/-- Code point of a well-formed 2-byte sequence. -/
def cp2 (b c : Nat) : Nat := (b - 0xC0) * 0x40 + (c - 0x80)

/-- Code point of a well-formed 3-byte sequence. -/
def cp3 (b c d : Nat) : Nat := (b - 0xE0) * 0x1000 + (c - 0x80) * 0x40 + (d - 0x80)

/-- Code point of a well-formed 4-byte sequence. -/
def cp4 (b c d e : Nat) : Nat :=
  (b - 0xF0) * 0x40000 + (c - 0x80) * 0x1000 + (d - 0x80) * 0x40 + (e - 0x80)

/-- UTF-8 decoding with `errors='replace'`: well-formed sequences decode
to their code point; each maximal subpart of an ill-formed sequence
(including a truncated final sequence) becomes one U+FFFD. -/
def utf8DecodeReplace : List Nat → List Nat
  | [] => []
  | b :: bs =>
    if b ≤ 0x7F then b :: utf8DecodeReplace bs
    else if 0xC2 ≤ b && b ≤ 0xDF then
      match bs with
      | [] => [0xFFFD]
      | c :: bs1 =>
        if isCont c then cp2 b c :: utf8DecodeReplace bs1
        else 0xFFFD :: utf8DecodeReplace (c :: bs1)
    else if 0xE0 ≤ b && b ≤ 0xEF then
      match bs with
      | [] => [0xFFFD]
      | c :: bs1 =>
        if cont3ok b c then
          match bs1 with
          | [] => [0xFFFD]
          | d :: bs2 =>
            if isCont d then cp3 b c d :: utf8DecodeReplace bs2
            else 0xFFFD :: utf8DecodeReplace (d :: bs2)
        else 0xFFFD :: utf8DecodeReplace (c :: bs1)
    else if 0xF0 ≤ b && b ≤ 0xF4 then
      match bs with
      | [] => [0xFFFD]
      | c :: bs1 =>
        if cont4ok b c then
          match bs1 with
          | [] => [0xFFFD]
          | d :: bs2 =>
            if isCont d then
              match bs2 with
              | [] => [0xFFFD]
              | e :: bs3 =>
                if isCont e then cp4 b c d e :: utf8DecodeReplace bs3
                else 0xFFFD :: utf8DecodeReplace (e :: bs3)
            else 0xFFFD :: utf8DecodeReplace (d :: bs2)
        else 0xFFFD :: utf8DecodeReplace (c :: bs1)
    else 0xFFFD :: utf8DecodeReplace bs

/-- Well-formedness of a byte list as UTF-8 (every sequence complete and
in the tight ranges): the streams on which a strict UTF-8 decode would
raise no error. -/
def utf8ValidB : List Nat → Bool
  | [] => true
  | b :: bs =>
    if b ≤ 0x7F then utf8ValidB bs
    else if 0xC2 ≤ b && b ≤ 0xDF then
      match bs with
      | [] => false
      | c :: bs1 => isCont c && utf8ValidB bs1
    else if 0xE0 ≤ b && b ≤ 0xEF then
      match bs with
      | c :: d :: bs2 => cont3ok b c && isCont d && utf8ValidB bs2
      | _ => false
    else if 0xF0 ≤ b && b ≤ 0xF4 then
      match bs with
      | c :: d :: e :: bs3 => cont4ok b c && isCont d && isCont e && utf8ValidB bs3
      | _ => false
    else false

/-! ### The chunked read/decode loop of `Website.get_html` (lines 70–94)

The loop accumulates, per received chunk, the three candidate decodings
(`response_utf8`, `response_latin1`, `response_iso`) by appending each
chunk's own replace-decode, then (re)selects `response` as the first
accumulated candidate containing no U+FFFD, returning the
unknown-encoding error when all three contain one.  If the stream closes
with zero chunks, the local `response` was never assigned: the Python
`if not response:` test then raises `UnboundLocalError`, which the
enclosing `except Exception` of `get_html` catches — modelled by the
`unbound` outcome. -/

/-- Outcome of the read loop. -/
inductive ReadOutcome where
  /-- The loop finished and `response` held this selected text. -/
  | ok (text : List Nat)
  /-- The loop finished without ever assigning `response`
  (zero chunks received): reading it raises `UnboundLocalError`. -/
  | unbound
  /-- Some accumulation step found U+FFFD in all three candidates:
  `get_html` returns the unknown-encoding error. -/
  | encodingError
deriving DecidableEq, Repr

/-- One pass of the `while True` loop of `get_html`, carrying the three
accumulated candidate decodings and the currently selected `response`. -/
def readLoop : List Nat → List Nat → List Nat → Option (List Nat) →
    List (List Nat) → ReadOutcome
  | _, _, _, resp, [] =>
    match resp with
    | none => .unbound
    | some r => .ok r
  | u, l, i, _, d :: rest =>
    let u' := u ++ utf8DecodeReplace d
    let l' := l ++ decodeLatin1 d
    let i' := i ++ decodeIso8859 d
    if 0xFFFD ∉ u' then readLoop u' l' i' (some u') rest
    else if 0xFFFD ∉ l' then readLoop u' l' i' (some l') rest
    else if 0xFFFD ∉ i' then readLoop u' l' i' (some i') rest
    else .encodingError

/-- The read loop started from empty accumulators, applied to the list
of chunks the peer delivers before closing the stream. -/
def readBody (chunks : List (List Nat)) : ReadOutcome :=
  readLoop [] [] [] none chunks

/-- Code points of a decoded response as a Lean string.  (Every code
point produced by the decoders above is a valid scalar value: the UTF-8
decoder excludes surrogates and values beyond U+10FFFF, and Latin-1
yields values below 256.) -/
def cpToString (cps : List Nat) : String := String.mk (cps.map Char.ofNat)

/-- Byte values of an ASCII/UTF-8 `String`, as a peer would send them
(used to build concrete network environments). -/
def strToBytes (s : String) : List Nat := s.toList.map Char.toNat

/-! ### Model of CPython `urllib.parse.urlparse` (as called on line 38)

Modelled from CPython 3.12 `urllib/parse.py`: WHATWG sanitisation
(strip of C0-control-or-space at both ends, removal of tab/CR/LF),
scheme extraction (first `:` with an ASCII-alphabetic first character
and scheme characters before it, lowercased), `//`-led authority up to
the first of `/?#`, fragment split at the first `#`, query split at the
first `?`, and the `;`-parameter split of the last path segment.  The
`ValueError` for authorities containing `[` without `]` (or vice versa)
is modelled; the content validation of bracketed IPv6 hosts and the
NFKC-based `_checknetloc` rejection of certain non-ASCII authorities are
not — so a parse that succeeds here can raise in CPython 3.12 for a
bracketed or non-ASCII authority, and the no-exception theorem
(`c1_amended`) therefore carries explicit bracket-free and ASCII
hypotheses, while the component-level theorems (port resolution,
request framing) assert nothing about those raising inputs beyond what
their parse-success hypothesis grants. -/

/-- Characters allowed in a URL scheme after the first. -/
def schemeCharB (c : Char) : Bool :=
  c.isAlpha || c.isDigit || c = '+' || c = '-' || c = '.'

/-- C0 control or space, stripped from URL ends (WHATWG). -/
def c0OrSpace (c : Char) : Bool := c.toNat ≤ 0x20

/-- Tab, CR and LF, removed from anywhere in a URL (WHATWG). -/
def unsafeUrlChar (c : Char) : Bool := c = '\t' || c = '\r' || c = '\n'

/-- URL sanitisation performed by `urlsplit` before parsing. -/
def sanitizeUrl (l : List Char) : List Char :=
  (((l.dropWhile c0OrSpace).reverse.dropWhile c0OrSpace).reverse).filter
    (fun c => !unsafeUrlChar c)

/-- Scheme extraction of `urlsplit`: on `scheme:rest` with a valid
scheme, the lowercased scheme and `rest`; otherwise no scheme. -/
def splitScheme (l : List Char) : String × List Char :=
  match l.indexOf? ':' with
  | none => ("", l)
  | some i =>
    if 0 < i ∧ (l.headD ' ').isAlpha ∧ (l.take i).all schemeCharB then
      (String.mk ((l.take i).map asciiLower), l.drop (i + 1))
    else ("", l)

/-- Split at the first occurrence of `sep`: the part before it and the
part after it (`(l, [])` when `sep` does not occur, matching the
behaviour of the `if sep in url: url.split(sep, 1)` idiom). -/
def splitFirst (sep : Char) (l : List Char) : List Char × List Char :=
  (l.takeWhile (fun c => c ≠ sep), (l.dropWhile (fun c => c ≠ sep)).drop 1)

/-- Authority delimiter: the first of `/`, `?` or `#` ends the netloc. -/
def netlocEnd (c : Char) : Bool := c = '/' || c = '?' || c = '#'

/-- The `_splitparams` step of `urlparse`: split the parameters off the
last path segment at its first `;`. -/
def splitParams (p : List Char) : List Char × List Char :=
  if ';' ∈ p then
    if '/' ∈ p then
      let seg := (p.reverse.takeWhile (fun c => c ≠ '/')).reverse
      let pre := p.take (p.length - seg.length)
      if ';' ∈ seg then
        (pre ++ seg.takeWhile (fun c => c ≠ ';'),
         (seg.dropWhile (fun c => c ≠ ';')).drop 1)
      else (p, [])
    else (p.takeWhile (fun c => c ≠ ';'), (p.dropWhile (fun c => c ≠ ';')).drop 1)
  else (p, [])

/-- Python exceptions that can escape the code modelled here. -/
inductive PyErr where
  /-- `ValueError`: non-numeric port text (`int(...)`), or mismatched
  brackets in the authority (`urlsplit`). -/
  | valueError
  /-- `OverflowError`: `connect` called with a port outside 0–65535. -/
  | overflowError
  /-- `UnicodeError`: the TLS wrap's idna encoding of the hostname
  failed (empty or otherwise unencodable label). -/
  | unicodeError
  /-- `RecursionError`: the interpreter recursion limit was hit inside
  an unbounded redirect chain. -/
  | recursionError
deriving DecidableEq, Repr

/-- Decidable equality of `Except` results, used to evaluate the model
on concrete inputs. -/
instance {ε α : Type} [DecidableEq ε] [DecidableEq α] :
    DecidableEq (Except ε α) := fun a b =>
  match a, b with
  | .ok x, .ok y =>
    if h : x = y then isTrue (by rw [h])
    else isFalse (fun hc => h (Except.ok.inj hc))
  | .error x, .error y =>
    if h : x = y then isTrue (by rw [h])
    else isFalse (fun hc => h (Except.error.inj hc))
  | .ok _, .error _ => isFalse (fun hc => Except.noConfusion hc)
  | .error _, .ok _ => isFalse (fun hc => Except.noConfusion hc)

/-- Result record of `urllib.parse.urlparse`. -/
structure Parsed where
  scheme : String
  netloc : String
  path : String
  params : String
  query : String
  fragment : String
deriving DecidableEq, Repr

/-- Model of `urllib.parse.urlparse(url)`. -/
def urlparseE (url : String) : Except PyErr Parsed :=
  let l := sanitizeUrl url.toList
  let sr := splitScheme l
  let scheme := sr.1
  let r1 := sr.2
  let hasAuth : Bool := decide (r1.take 2 = ['/', '/'])
  let netl := if hasAuth then (r1.drop 2).takeWhile (fun c => !netlocEnd c) else []
  let r2 := if hasAuth then (r1.drop 2).dropWhile (fun c => !netlocEnd c) else r1
  if ¬ (('[' ∈ netl) ↔ (']' ∈ netl)) then .error .valueError
  else
    let fr := splitFirst '#' r2
    let qr := splitFirst '?' fr.1
    let pp := splitParams qr.1
    .ok ⟨scheme, String.mk netl, String.mk pp.1, String.mk pp.2,
         String.mk qr.2, String.mk fr.2⟩

/-- The state `Website.__parse_url` (lines 36–51) leaves on the object:
the `urlparse` result plus the derived `scheme`, `netloc`, `host`
(text before the first `:` of the netloc), resolved `port` (default 443
for the `https` scheme and 80 otherwise, overridden by `int` of the text
between the first and second `:` of the netloc — whose `ValueError` on
non-numeric text propagates), and the concatenated
`cmd = path + params + query + fragment`. -/
structure Site where
  parsed : Parsed
  scheme : String
  netloc : String
  host : String
  port : Int
  cmd : String
deriving DecidableEq, Repr

/-- Model of `Website.__parse_url` (lines 36–51). -/
def parseUrl (url : String) : Except PyErr Site :=
  match urlparseE url with
  | .error e => .error e
  | .ok p =>
    let nl := p.netloc.toList
    let host := String.mk ((splitOnChar ':' nl).headD [])
    let cmd := p.path ++ p.params ++ p.query ++ p.fragment
    if ':' ∈ nl then
      match pyInt ((splitOnChar ':' nl).getD 1 []) with
      | some v => .ok ⟨p, p.scheme, p.netloc, host, v, cmd⟩
      | none => .error .valueError
    else
      .ok ⟨p, p.scheme, p.netloc, host,
           (if p.scheme = "https" then (443 : Int) else 80), cmd⟩

/-! ### Connection setup (`Website.__init__`, lines 22–34) -/

/-- Behaviour of the network for one URL's connection attempt: whether
the TCP/TLS connect succeeds (a failing connect raises `socket.error`,
which `__init__` catches, leaving `browser_socket = None`), whether the
idna encoding of the hostname fails — it runs in the TLS wrap's
`server_hostname` handling when the port is 443 and in `connect`'s
address conversion at every port, and the resulting error
(`UnicodeError`, surfaced by the argument converter as a `TypeError`
wrapping it on the `connect` path) is not a `socket.error`, so
`__init__` does not catch it — the chunks `recv(512)` delivers before
the peer closes the stream, and whether `sendall`/`recv` raises
mid-transfer (caught by `get_html`'s blanket `except`). -/
structure NetBehavior where
  connectOk : Bool
  hostEncodeError : Bool
  chunks : List (List Nat)
  readError : Bool

/-- An environment assigns a network behaviour to each URL fetched. -/
abbrev Env := String → NetBehavior

/-- The socket wrapper `__init__` leaves in `browser_socket` when the
connect succeeds: whether the stream was wrapped in TLS (decided by
`self.port == 443`, line 28), and whether that TLS session verifies the
peer certificate and hostname — `ssl._create_unverified_context()`
(line 23) disables both, per its documented contract. -/
structure Conn where
  tls : Bool
  verifiesCert : Bool
deriving DecidableEq, Repr

/-- Model of the connection phase of `Website.__init__` (lines 22–34):
wrap in TLS exactly when the resolved port is 443, then connect.  A
failing idna encoding of the hostname raises uncaught at *every* port —
at the wrap's `server_hostname` handling for port 443 and at `connect`'s
address conversion otherwise, in both cases before the port range is
enforced — and is modelled first; then `OverflowError` (uncaught) for a
port outside 0–65535, and `socket.error` (caught, leaving `None`) when
the peer is unreachable.  (Failures of the socket *allocation* itself
on line 24, e.g. fd exhaustion, are resource errors outside this
model.) -/
def mkConn (site : Site) (nb : NetBehavior) : Except PyErr (Option Conn) :=
  if nb.hostEncodeError = true then .error .unicodeError
  else if site.port < 0 ∨ 65535 < site.port then .error .overflowError
  else if nb.connectOk then .ok (some ⟨decide (site.port = 443), false⟩)
  else .ok none

/-! ### Request framing, redirect handling and the fetch pipeline -/

/-- The exact request bytes `get_html` writes (lines 64–68): the parsed
path (`/` when empty) — not the concatenated `cmd` — with a `Host` and
a `Connection: close` header and nothing else. -/
def requestOf (site : Site) : String :=
  "GET " ++ (if site.parsed.path = "" then "/" else site.parsed.path) ++
  " HTTP/1.1\r\nHost: " ++ site.host ++ "\r\nConnection: close\r\n\r\n"

/-- Error fragment returned when no connection was established. -/
def connErrMsg : String := "<p>Error: Could not establish connection.</p>"

/-- Error fragment returned by `get_html`'s blanket `except`. -/
def recvErrMsg : String := "<p>Error receiving data.</p>"

/-- Error fragment of the (dead, see `c2`) empty-response branch. -/
def emptyMsg : String := "<p>Error: Empty response from the server.</p>"

/-- Error fragment returned when all three candidates contain U+FFFD. -/
def unknownEncMsg : String := "<p>Error: Unknown Encoding</p>"

/-- Error fragment returned on a redirect without a usable location. -/
def noLocMsg : String := "<p>Error: No new location provided.</p>"

/-- The 301 status text searched for in the whole response (line 113). -/
def s301 : String := "HTTP/1.1 301 Moved Permanently"

/-- The 302 status text searched for in the whole response (line 113). -/
def s302 : String := "HTTP/1.1 302 Found"

/-- Redirect detection of `handle_status` (line 113): either status text
occurring anywhere in the response string. -/
def redirectDetected (resp : String) : Bool :=
  pyContains resp s301 || pyContains resp s302

/-- Model of Python `resp.split('\r\n')` (line 138): maximal runs
between non-overlapping CRLF occurrences, scanned left to right. -/
def splitCRLF : List Char → List (List Char)
  | [] => [[]]
  | [c] => [[c]]
  | c :: d :: t =>
    if c = '\r' ∧ d = '\n' then [] :: splitCRLF t
    else
      match splitCRLF (d :: t) with
      | [] => [[c]]
      | g :: gs => (c :: g) :: gs

/-- Model of `Website.get_location` (lines 128–141): the first line
(split on CRLF) whose lowercasing starts with `location:`, taken after
its first `:` and stripped; `none` when no line matches. -/
def getLocation (resp : String) : Option String :=
  (splitCRLF resp.toList).findSome? (fun line =>
    if ("location:".toList).isPrefixOf (line.map asciiLower) then
      some (pyStrip (afterChar ':' line))
    else none)

/-- Events observable on connections during a fetch, for the resource
lifecycle claims: opening socket `id`, writing the request on it, and
closing it. -/
inductive Event where
  | openConn (id : Nat)
  | sendReq (id : Nat) (req : String)
  | closeConn (id : Nat)
deriving DecidableEq, Repr

/-- Result of one `Website(url)`/`get_html` cycle: the returned string
(or the exception escaping construction), the connection events in
order, the next fresh connection id, and the id of this website's own
connection (`none` when `browser_socket` is `None`) — which its
*caller*'s `close()` would release. -/
structure FetchOut where
  res : Except PyErr String
  evs : List Event
  nextId : Nat
  rootConn : Option Nat
deriving Repr

/-- Model of `Website.handle_status` (lines 101–126), instrumented with
connection events.  On a detected redirect with a truthy location it
builds `Website(new_location)` and returns `redirect.get_html()`,
closing the redirect's own connection afterwards (`redirect.close()`,
guarded by `if self.browser_socket`); an exception escaping the nested
construction propagates out of `handle_status` (into `get_html`'s
`except`).  With no (or an empty) location it returns the no-location
error; with no redirect detected it returns the response unchanged. -/
def handleStatusTr (recur : Nat → String → FetchOut) (nid : Nat)
    (resp : String) : Except PyErr String × List Event × Nat :=
  if redirectDetected resp then
    match getLocation resp with
    | none => (.ok noLocMsg, [], nid)
    | some loc =>
      if loc = "" then (.ok noLocMsg, [], nid)
      else
        let sub := recur nid loc
        match sub.res with
        | .error e => (.error e, sub.evs, sub.nextId)
        | .ok s =>
          match sub.rootConn with
          | some c => (.ok s, sub.evs ++ [Event.closeConn c], sub.nextId)
          | none => (.ok s, sub.evs, sub.nextId)
  else (.ok resp, [], nid)

/-- Model of `Website.get_html` (lines 53–99), instrumented with
connection events: returns the error fragment when `browser_socket` is
`None`; otherwise writes the request, runs the read loop, and passes a
nonempty selected response to `handle_status` — any exception inside
(io errors, the `UnboundLocalError` of a zero-chunk stream, exceptions
propagating from a nested `Website` construction, `RecursionError`)
is caught and becomes the receive-error fragment.  It never closes its
own connection. -/
def getHtmlTr (recur : Nat → String → FetchOut) (nb : NetBehavior)
    (site : Site) (conn : Option Conn) (nid : Nat) :
    String × List Event × Nat × Option Nat :=
  match conn with
  | none => (connErrMsg, [], nid, none)
  | some _ =>
    let ev0 := [Event.openConn nid, Event.sendReq nid (requestOf site)]
    if nb.readError then (recvErrMsg, ev0, nid + 1, some nid)
    else
      match readBody nb.chunks with
      | .encodingError => (unknownEncMsg, ev0, nid + 1, some nid)
      | .unbound => (recvErrMsg, ev0, nid + 1, some nid)
      | .ok r =>
        if r = [] then (emptyMsg, ev0, nid + 1, some nid)
        else
          match handleStatusTr recur (nid + 1) (cpToString r) with
          | (.error _, evs, nid2) => (recvErrMsg, ev0 ++ evs, nid2, some nid)
          | (.ok s, evs, nid2) => (s, ev0 ++ evs, nid2, some nid)

/-- One `Website(url)` construction followed by `get_html()`:
exceptions escaping `__parse_url` or the connect phase propagate;
otherwise the string `get_html` returns. -/
def fetchStepTr (env : Env) (recur : Nat → String → FetchOut) (nid : Nat)
    (url : String) : FetchOut :=
  match parseUrl url with
  | .error e => ⟨.error e, [], nid, none⟩
  | .ok site =>
    match mkConn site (env url) with
    | .error e => ⟨.error e, [], nid, none⟩
    | .ok conn =>
      match getHtmlTr recur (env url) site conn nid with
      | (s, evs, nid2, root) => ⟨.ok s, evs, nid2, root⟩

/-- The fetch pipeline with a bound on the redirect recursion depth:
`fuel` models the Python recursion limit, whose exhaustion raises
`RecursionError` inside the redirect chain (caught by the nearest
enclosing `get_html`). -/
def fetchTr (env : Env) : Nat → Nat → String → FetchOut
  | 0, nid, url =>
    fetchStepTr env (fun n _ => ⟨.error .recursionError, [], n, none⟩) nid url
  | f + 1, nid, url => fetchStepTr env (fetchTr env f) nid url

/-- The entry point `fetch(url)` of the spec: `Website(url).get_html()`,
returning a string unless an exception escapes. -/
def fetch (env : Env) (fuel : Nat) (url : String) : Except PyErr String :=
  (fetchTr env fuel 0 url).res

/-! ### Branch equations of the UTF-8 replace decoder -/

/-- Decoder equation: ASCII byte. -/
theorem udr_ascii (b : Nat) (bs : List Nat) (hb : b ≤ 0x7F) :
    utf8DecodeReplace (b :: bs) = b :: utf8DecodeReplace bs := by
  rw [utf8DecodeReplace.eq_def]; simp [hb]

/-- Decoder equation: 2-byte lead at end of input. -/
theorem udr_two_nil (b : Nat) (hb : ¬ b ≤ 0x7F)
    (r2 : (0xC2 ≤ b && b ≤ 0xDF) = true) :
    utf8DecodeReplace [b] = [0xFFFD] := by
  rw [utf8DecodeReplace.eq_def]; simp [hb, r2]

/-- Decoder equation: complete 2-byte sequence. -/
theorem udr_two_ok (b c : Nat) (bs : List Nat) (hb : ¬ b ≤ 0x7F)
    (r2 : (0xC2 ≤ b && b ≤ 0xDF) = true) (hc : isCont c = true) :
    utf8DecodeReplace (b :: c :: bs) = cp2 b c :: utf8DecodeReplace bs := by
  rw [utf8DecodeReplace.eq_def]; simp [hb, r2, hc]

/-- Decoder equation: 2-byte lead with an invalid continuation. -/
theorem udr_two_bad (b c : Nat) (bs : List Nat) (hb : ¬ b ≤ 0x7F)
    (r2 : (0xC2 ≤ b && b ≤ 0xDF) = true) (hc : ¬ isCont c = true) :
    utf8DecodeReplace (b :: c :: bs) = 0xFFFD :: utf8DecodeReplace (c :: bs) := by
  rw [utf8DecodeReplace.eq_def]; simp [hb, r2, hc]

/-- Decoder equation: 3-byte lead at end of input. -/
theorem udr_three_nil (b : Nat) (hb : ¬ b ≤ 0x7F)
    (r2 : ¬ (0xC2 ≤ b && b ≤ 0xDF) = true) (r3 : (0xE0 ≤ b && b ≤ 0xEF) = true) :
    utf8DecodeReplace [b] = [0xFFFD] := by
  rw [utf8DecodeReplace.eq_def]; simp [hb, r2, r3]

/-- Decoder equation: truncated 3-byte sequence of two bytes. -/
theorem udr_three_one (b c : Nat) (hb : ¬ b ≤ 0x7F)
    (r2 : ¬ (0xC2 ≤ b && b ≤ 0xDF) = true) (r3 : (0xE0 ≤ b && b ≤ 0xEF) = true)
    (hc : cont3ok b c = true) :
    utf8DecodeReplace [b, c] = [0xFFFD] := by
  rw [utf8DecodeReplace.eq_def]; simp [hb, r2, r3, hc]

/-- Decoder equation: complete 3-byte sequence. -/
theorem udr_three_ok (b c d : Nat) (bs : List Nat) (hb : ¬ b ≤ 0x7F)
    (r2 : ¬ (0xC2 ≤ b && b ≤ 0xDF) = true) (r3 : (0xE0 ≤ b && b ≤ 0xEF) = true)
    (hc : cont3ok b c = true) (hd : isCont d = true) :
    utf8DecodeReplace (b :: c :: d :: bs) = cp3 b c d :: utf8DecodeReplace bs := by
  rw [utf8DecodeReplace.eq_def]; simp [hb, r2, r3, hc, hd]

/-- Decoder equation: 3-byte sequence broken at its second continuation. -/
theorem udr_three_bad2 (b c d : Nat) (bs : List Nat) (hb : ¬ b ≤ 0x7F)
    (r2 : ¬ (0xC2 ≤ b && b ≤ 0xDF) = true) (r3 : (0xE0 ≤ b && b ≤ 0xEF) = true)
    (hc : cont3ok b c = true) (hd : ¬ isCont d = true) :
    utf8DecodeReplace (b :: c :: d :: bs) =
      0xFFFD :: utf8DecodeReplace (d :: bs) := by
  rw [utf8DecodeReplace.eq_def]; simp [hb, r2, r3, hc, hd]

/-- Decoder equation: 3-byte sequence broken at its first continuation. -/
theorem udr_three_bad1 (b c : Nat) (bs : List Nat) (hb : ¬ b ≤ 0x7F)
    (r2 : ¬ (0xC2 ≤ b && b ≤ 0xDF) = true) (r3 : (0xE0 ≤ b && b ≤ 0xEF) = true)
    (hc : ¬ cont3ok b c = true) :
    utf8DecodeReplace (b :: c :: bs) = 0xFFFD :: utf8DecodeReplace (c :: bs) := by
  rw [utf8DecodeReplace.eq_def]; simp [hb, r2, r3, hc]

/-- Decoder equation: 4-byte lead at end of input. -/
theorem udr_four_nil (b : Nat) (hb : ¬ b ≤ 0x7F)
    (r2 : ¬ (0xC2 ≤ b && b ≤ 0xDF) = true) (r3 : ¬ (0xE0 ≤ b && b ≤ 0xEF) = true)
    (r4 : (0xF0 ≤ b && b ≤ 0xF4) = true) :
    utf8DecodeReplace [b] = [0xFFFD] := by
  rw [utf8DecodeReplace.eq_def]; simp [hb, r2, r3, r4]

/-- Decoder equation: truncated 4-byte sequence of two bytes. -/
theorem udr_four_one (b c : Nat) (hb : ¬ b ≤ 0x7F)
    (r2 : ¬ (0xC2 ≤ b && b ≤ 0xDF) = true) (r3 : ¬ (0xE0 ≤ b && b ≤ 0xEF) = true)
    (r4 : (0xF0 ≤ b && b ≤ 0xF4) = true) (hc : cont4ok b c = true) :
    utf8DecodeReplace [b, c] = [0xFFFD] := by
  rw [utf8DecodeReplace.eq_def]; simp [hb, r2, r3, r4, hc]

/-- Decoder equation: truncated 4-byte sequence of three bytes. -/
theorem udr_four_two (b c d : Nat) (hb : ¬ b ≤ 0x7F)
    (r2 : ¬ (0xC2 ≤ b && b ≤ 0xDF) = true) (r3 : ¬ (0xE0 ≤ b && b ≤ 0xEF) = true)
    (r4 : (0xF0 ≤ b && b ≤ 0xF4) = true) (hc : cont4ok b c = true)
    (hd : isCont d = true) :
    utf8DecodeReplace [b, c, d] = [0xFFFD] := by
  rw [utf8DecodeReplace.eq_def]; simp [hb, r2, r3, r4, hc, hd]

/-- Decoder equation: complete 4-byte sequence. -/
theorem udr_four_ok (b c d e : Nat) (bs : List Nat) (hb : ¬ b ≤ 0x7F)
    (r2 : ¬ (0xC2 ≤ b && b ≤ 0xDF) = true) (r3 : ¬ (0xE0 ≤ b && b ≤ 0xEF) = true)
    (r4 : (0xF0 ≤ b && b ≤ 0xF4) = true) (hc : cont4ok b c = true)
    (hd : isCont d = true) (he : isCont e = true) :
    utf8DecodeReplace (b :: c :: d :: e :: bs) =
      cp4 b c d e :: utf8DecodeReplace bs := by
  rw [utf8DecodeReplace.eq_def]; simp [hb, r2, r3, r4, hc, hd, he]

/-- Decoder equation: 4-byte sequence broken at its third continuation. -/
theorem udr_four_bad3 (b c d e : Nat) (bs : List Nat) (hb : ¬ b ≤ 0x7F)
    (r2 : ¬ (0xC2 ≤ b && b ≤ 0xDF) = true) (r3 : ¬ (0xE0 ≤ b && b ≤ 0xEF) = true)
    (r4 : (0xF0 ≤ b && b ≤ 0xF4) = true) (hc : cont4ok b c = true)
    (hd : isCont d = true) (he : ¬ isCont e = true) :
    utf8DecodeReplace (b :: c :: d :: e :: bs) =
      0xFFFD :: utf8DecodeReplace (e :: bs) := by
  rw [utf8DecodeReplace.eq_def]; simp [hb, r2, r3, r4, hc, hd, he]

/-- Decoder equation: 4-byte sequence broken at its second continuation. -/
theorem udr_four_bad2 (b c d : Nat) (bs : List Nat) (hb : ¬ b ≤ 0x7F)
    (r2 : ¬ (0xC2 ≤ b && b ≤ 0xDF) = true) (r3 : ¬ (0xE0 ≤ b && b ≤ 0xEF) = true)
    (r4 : (0xF0 ≤ b && b ≤ 0xF4) = true) (hc : cont4ok b c = true)
    (hd : ¬ isCont d = true) :
    utf8DecodeReplace (b :: c :: d :: bs) =
      0xFFFD :: utf8DecodeReplace (d :: bs) := by
  rw [utf8DecodeReplace.eq_def]; simp [hb, r2, r3, r4, hc, hd]

/-- Decoder equation: 4-byte sequence broken at its first continuation. -/
theorem udr_four_bad1 (b c : Nat) (bs : List Nat) (hb : ¬ b ≤ 0x7F)
    (r2 : ¬ (0xC2 ≤ b && b ≤ 0xDF) = true) (r3 : ¬ (0xE0 ≤ b && b ≤ 0xEF) = true)
    (r4 : (0xF0 ≤ b && b ≤ 0xF4) = true) (hc : ¬ cont4ok b c = true) :
    utf8DecodeReplace (b :: c :: bs) = 0xFFFD :: utf8DecodeReplace (c :: bs) := by
  rw [utf8DecodeReplace.eq_def]; simp [hb, r2, r3, r4, hc]

/-- Decoder equation: byte that can start no sequence. -/
theorem udr_other (b : Nat) (bs : List Nat) (hb : ¬ b ≤ 0x7F)
    (r2 : ¬ (0xC2 ≤ b && b ≤ 0xDF) = true) (r3 : ¬ (0xE0 ≤ b && b ≤ 0xEF) = true)
    (r4 : ¬ (0xF0 ≤ b && b ≤ 0xF4) = true) :
    utf8DecodeReplace (b :: bs) = 0xFFFD :: utf8DecodeReplace bs := by
  rw [utf8DecodeReplace.eq_def]; simp [hb, r2, r3, r4]

/-- Concatenativity of the replace decoder over a cleanly decoded left
part: when `utf8DecodeReplace a` contains no U+FFFD, `a` consists of
complete well-formed sequences, so decoding continues identically across
the boundary. -/
theorem utf8DecodeReplace_append : ∀ a b : List Nat,
    0xFFFD ∉ utf8DecodeReplace a →
    utf8DecodeReplace (a ++ b) =
      utf8DecodeReplace a ++ utf8DecodeReplace b := by
  intro a b
  induction a using utf8DecodeReplace.induct with
  | case1 => intro _; simp [show utf8DecodeReplace ([] : List Nat) = [] from rfl]
  | case2 b0 bs hb ih =>
    intro h
    rw [udr_ascii b0 bs hb] at h
    simp only [List.mem_cons, not_or] at h
    rw [List.cons_append, udr_ascii b0 (bs ++ b) hb, udr_ascii b0 bs hb,
        List.cons_append, ih h.2]
  | case3 b0 hb r2 =>
    intro h
    rw [udr_two_nil b0 hb r2] at h
    simp at h
  | case4 b0 hb r2 c bs hc ih =>
    intro h
    rw [udr_two_ok b0 c bs hb r2 hc] at h
    simp only [List.mem_cons, not_or] at h
    rw [List.cons_append, List.cons_append, udr_two_ok b0 c (bs ++ b) hb r2 hc,
        udr_two_ok b0 c bs hb r2 hc, List.cons_append, ih h.2]
  | case5 b0 hb r2 c bs hc ih =>
    intro h
    rw [udr_two_bad b0 c bs hb r2 hc] at h
    simp at h
  | case6 b0 hb r2 r3 =>
    intro h
    rw [udr_three_nil b0 hb r2 r3] at h
    simp at h
  | case7 b0 hb r2 r3 c hc =>
    intro h
    rw [udr_three_one b0 c hb r2 r3 hc] at h
    simp at h
  | case8 b0 hb r2 r3 c hc d bs hd ih =>
    intro h
    rw [udr_three_ok b0 c d bs hb r2 r3 hc hd] at h
    simp only [List.mem_cons, not_or] at h
    rw [List.cons_append, List.cons_append, List.cons_append,
        udr_three_ok b0 c d (bs ++ b) hb r2 r3 hc hd,
        udr_three_ok b0 c d bs hb r2 r3 hc hd, List.cons_append, ih h.2]
  | case9 b0 hb r2 r3 c hc d bs hd ih =>
    intro h
    rw [udr_three_bad2 b0 c d bs hb r2 r3 hc hd] at h
    simp at h
  | case10 b0 hb r2 r3 c bs hc ih =>
    intro h
    rw [udr_three_bad1 b0 c bs hb r2 r3 hc] at h
    simp at h
  | case11 b0 hb r2 r3 r4 =>
    intro h
    rw [udr_four_nil b0 hb r2 r3 r4] at h
    simp at h
  | case12 b0 hb r2 r3 r4 c hc =>
    intro h
    rw [udr_four_one b0 c hb r2 r3 r4 hc] at h
    simp at h
  | case13 b0 hb r2 r3 r4 c hc d hd =>
    intro h
    rw [udr_four_two b0 c d hb r2 r3 r4 hc hd] at h
    simp at h
  | case14 b0 hb r2 r3 r4 c hc d hd e bs he ih =>
    intro h
    rw [udr_four_ok b0 c d e bs hb r2 r3 r4 hc hd he] at h
    simp only [List.mem_cons, not_or] at h
    rw [List.cons_append, List.cons_append, List.cons_append, List.cons_append,
        udr_four_ok b0 c d e (bs ++ b) hb r2 r3 r4 hc hd he,
        udr_four_ok b0 c d e bs hb r2 r3 r4 hc hd he, List.cons_append, ih h.2]
  | case15 b0 hb r2 r3 r4 c hc d hd e bs he ih =>
    intro h
    rw [udr_four_bad3 b0 c d e bs hb r2 r3 r4 hc hd he] at h
    simp at h
  | case16 b0 hb r2 r3 r4 c hc d bs hd ih =>
    intro h
    rw [udr_four_bad2 b0 c d bs hb r2 r3 r4 hc hd] at h
    simp at h
  | case17 b0 hb r2 r3 r4 c bs hc ih =>
    intro h
    rw [udr_four_bad1 b0 c bs hb r2 r3 r4 hc] at h
    simp at h
  | case18 b0 bs hb r2 r3 r4 ih =>
    intro h
    rw [udr_other b0 bs hb r2 r3 r4] at h
    simp at h

/-! ### Invariants of the read loop -/

/-- The UTF-8 candidate accumulated over a chunk list: the concatenation
of the per-chunk replace-decodes (exactly how `response_utf8` grows). -/
def uAcc (cs : List (List Nat)) : List Nat := (cs.map utf8DecodeReplace).flatten

/-- The Latin-1 (and ISO-8859-1) candidate accumulated over a chunk
list: the bytes themselves. -/
def lAcc (cs : List (List Nat)) : List Nat := cs.flatten

/-- A clean accumulated UTF-8 candidate coincides with the replace
decode of the whole byte buffer. -/
theorem uAcc_clean_eq_join : ∀ cs : List (List Nat),
    0xFFFD ∉ uAcc cs → uAcc cs = utf8DecodeReplace cs.flatten := by
  intro cs
  induction cs with
  | nil => intro _; rfl
  | cons d rest ih =>
    intro h
    have hd : uAcc (d :: rest) = utf8DecodeReplace d ++ uAcc rest := by
      simp [uAcc]
    rw [hd] at h ⊢
    simp only [List.mem_append, not_or] at h
    rw [List.flatten_cons, utf8DecodeReplace_append d rest.flatten h.1, ih h.2]

/-- Any value the read loop returns is either the accumulated UTF-8
candidate (then free of U+FFFD) or the accumulated Latin-1 candidate,
relative to the accumulators at loop entry. -/
theorem readLoop_ok_shape : ∀ (chunks : List (List Nat)) (u l : List Nat)
    (resp : Option (List Nat)) (r : List Nat),
    (resp = none ∨ (∃ v, resp = some v ∧ ((v = u ∧ 0xFFFD ∉ u) ∨ v = l))) →
    readLoop u l l resp chunks = .ok r →
    ((r = u ++ uAcc chunks ∧ 0xFFFD ∉ u ++ uAcc chunks) ∨ r = l ++ lAcc chunks) := by
  intro chunks
  induction chunks with
  | nil =>
    intro u l resp r hinv hrun
    rcases hinv with hnone | ⟨v, hv, hsel⟩
    · rw [hnone] at hrun
      exact absurd hrun (by simp [readLoop])
    · rw [hv] at hrun
      simp only [readLoop, ReadOutcome.ok.injEq] at hrun
      subst hrun
      rcases hsel with ⟨hvu, hcl⟩ | hvl
      · exact Or.inl (by subst hvu; simp [uAcc, hcl])
      · exact Or.inr (by subst hvl; simp [lAcc])
  | cons d rest ih =>
    intro u l resp r hinv hrun
    simp only [readLoop, decodeLatin1, decodeIso8859] at hrun
    by_cases hu : 0xFFFD ∉ u ++ utf8DecodeReplace d
    · rw [if_pos hu] at hrun
      have hstep := ih (u ++ utf8DecodeReplace d) (l ++ d) _ r
        (Or.inr ⟨_, rfl, Or.inl ⟨rfl, hu⟩⟩) hrun
      have hEu : u ++ utf8DecodeReplace d ++ uAcc rest = u ++ uAcc (d :: rest) := by
        simp [uAcc, List.append_assoc]
      have hEl : l ++ d ++ lAcc rest = l ++ lAcc (d :: rest) := by
        simp [lAcc, List.append_assoc]
      rcases hstep with ⟨hr, hcl⟩ | hr
      · exact Or.inl ⟨hr.trans hEu, hEu ▸ hcl⟩
      · exact Or.inr (hr.trans hEl)
    · rw [if_neg hu] at hrun
      by_cases hl : 0xFFFD ∉ l ++ d
      · rw [if_pos hl] at hrun
        have hstep := ih (u ++ utf8DecodeReplace d) (l ++ d) _ r
          (Or.inr ⟨_, rfl, Or.inr rfl⟩) hrun
        have hEu : u ++ utf8DecodeReplace d ++ uAcc rest = u ++ uAcc (d :: rest) := by
          simp [uAcc, List.append_assoc]
        have hEl : l ++ d ++ lAcc rest = l ++ lAcc (d :: rest) := by
          simp [lAcc, List.append_assoc]
        rcases hstep with ⟨hr, hcl⟩ | hr
        · exact Or.inl ⟨hr.trans hEu, hEu ▸ hcl⟩
        · exact Or.inr (hr.trans hEl)
      · rw [if_neg hl] at hrun
        rw [if_neg hl] at hrun
        exact absurd hrun (by simp)

/-- When every chunk decodes cleanly under UTF-8, the loop selects the
UTF-8 candidate at every step and ends on the full accumulation. -/
theorem readLoop_clean : ∀ (chunks : List (List Nat)) (u l : List Nat)
    (resp : Option (List Nat)),
    0xFFFD ∉ u → (∀ c ∈ chunks, 0xFFFD ∉ utf8DecodeReplace c) → chunks ≠ [] →
    readLoop u l l resp chunks = .ok (u ++ uAcc chunks) := by
  intro chunks
  induction chunks with
  | nil => intro u l resp _ _ hne; exact absurd rfl hne
  | cons d rest ih =>
    intro u l resp hu hcs _
    have hd : 0xFFFD ∉ utf8DecodeReplace d := hcs d (by simp)
    have hu' : 0xFFFD ∉ u ++ utf8DecodeReplace d := by
      simp only [List.mem_append, not_or]; exact ⟨hu, hd⟩
    simp only [readLoop, decodeLatin1, decodeIso8859, if_pos hu']
    cases rest with
    | nil => simp [readLoop, uAcc]
    | cons d2 rest2 =>
      rw [ih (u ++ utf8DecodeReplace d) (l ++ d) (some (u ++ utf8DecodeReplace d))
          hu' (fun c hc => hcs c (by simp [hc])) (by simp)]
      simp [uAcc, List.append_assoc]

/-- With genuine bytes (all below 256) the Latin-1 accumulation can
never contain U+FFFD, so the all-candidates-dirty exit of the loop is
unreachable. -/
theorem readLoop_ne_encodingError : ∀ (chunks : List (List Nat))
    (u l : List Nat) (resp : Option (List Nat)),
    (∀ x ∈ l, x < 256) → (∀ c ∈ chunks, ∀ x ∈ c, x < 256) →
    readLoop u l l resp chunks ≠ .encodingError := by
  intro chunks
  induction chunks with
  | nil =>
    intro u l resp _ _
    cases resp <;> simp [readLoop]
  | cons d rest ih =>
    intro u l resp hl hcs
    have hl' : ∀ x ∈ l ++ d, x < 256 := by
      intro x hx
      rcases List.mem_append.mp hx with hx | hx
      · exact hl x hx
      · exact hcs d (by simp) x hx
    have hlf : 0xFFFD ∉ l ++ d := fun hmem => by
      have := hl' _ hmem; omega
    simp only [readLoop, decodeLatin1, decodeIso8859]
    by_cases hu : 0xFFFD ∉ u ++ utf8DecodeReplace d
    · rw [if_pos hu]
      exact ih _ _ _ hl' (fun c hc => hcs c (by simp [hc]))
    · rw [if_neg hu, if_pos hlf]
      exact ih _ _ _ hl' (fun c hc => hcs c (by simp [hc]))

/-! ### Facts about the authority split and `int` conversion -/

/-- Character list of a string concatenation. -/
theorem toList_append (s t : String) :
    (s ++ t).toList = s.toList ++ t.toList := String.data_append s t

/-- Splitting at a separator-free head: the head becomes the first
group. -/
theorem splitOnChar_sep_append (sep : Char) :
    ∀ (h t : List Char), sep ∉ h →
      splitOnChar sep (h ++ sep :: t) = h :: splitOnChar sep t := by
  intro h
  induction h with
  | nil =>
    intro t _
    simp [splitOnChar]
  | cons c h' ih =>
    intro t hni
    have hc : ¬ c = sep := fun hc => hni (by simp [hc])
    have hh' : sep ∉ h' := fun hm => hni (by simp [hm])
    rw [List.cons_append, splitOnChar, if_neg hc, ih t hh']

/-- Splitting a separator-free list yields a single group. -/
theorem splitOnChar_no_sep (sep : Char) :
    ∀ n : List Char, sep ∉ n → splitOnChar sep n = [n] := by
  intro n
  induction n with
  | nil => intro _; rfl
  | cons c t ih =>
    intro hni
    have hc : ¬ c = sep := fun hc => hni (by simp [hc])
    have ht : sep ∉ t := fun hm => hni (by simp [hm])
    rw [splitOnChar, if_neg hc, ih ht]

/-- Digits are not Python whitespace, so an all-digit list survives
`dropWhile isPySpace` unchanged. -/
theorem dropWhile_space_of_digits (x : List Char)
    (hx : ∀ c ∈ x, isDigitC c = true) : x.dropWhile isPySpace = x := by
  cases x with
  | nil => rfl
  | cons c t =>
    have hd : isDigitC c = true := hx c (by simp)
    have hs : isPySpace c = false := by
      simp only [isDigitC, Bool.and_eq_true, decide_eq_true_eq] at hd
      simp only [isPySpace, Bool.or_eq_false_iff, decide_eq_false_iff_not]
      omega
    simp [List.dropWhile_cons, hs]

/-- An all-digit list survives `stripList` unchanged. -/
theorem stripList_of_digits (n : List Char)
    (hn : ∀ c ∈ n, isDigitC c = true) : stripList n = n := by
  unfold stripList
  rw [dropWhile_space_of_digits n hn,
      dropWhile_space_of_digits n.reverse (fun c hc => hn c (List.mem_reverse.mp hc)),
      List.reverse_reverse]

/-- Model of `int` on a nonempty ASCII digit string: its decimal
value. -/
theorem pyInt_digits (n : List Char) (hne : n ≠ [])
    (hd : ∀ c ∈ n, isDigitC c = true) :
    pyInt n = some ((natOfDigits n : Int)) := by
  have hstrip := stripList_of_digits n hd
  have hval : digitsVal n = some (natOfDigits n) := by
    unfold digitsVal
    rw [if_pos ⟨hne, List.all_eq_true.mpr hd⟩]
  cases n with
  | nil => exact absurd rfl hne
  | cons c t =>
    have hc : isDigitC c = true := hd c (by simp)
    have hcp : c ≠ '+' := by
      intro hcc
      rw [hcc] at hc
      simp [isDigitC] at hc
    have hcm : c ≠ '-' := by
      intro hcc
      rw [hcc] at hc
      simp [isDigitC] at hc
    rw [pyInt.eq_def, hstrip]
    split
    · rename_i r heq
      exact absurd (List.head_eq_of_cons_eq heq) hcp
    · rename_i r heq
      exact absurd (List.head_eq_of_cons_eq heq) hcm
    · rw [hval]
      rfl

/-- Port resolution of `__parse_url` without an explicit port: the
scheme-based default, 443 for `https` and 80 otherwise. -/
theorem parseUrl_port_default (url : String) (site : Site)
    (h : parseUrl url = .ok site) (hno : ':' ∉ site.netloc.toList) :
    site.port = (if site.scheme = "https" then (443 : Int) else 80) := by
  unfold parseUrl at h
  cases hup : urlparseE url with
  | error e => rw [hup] at h; exact absurd h (by simp)
  | ok p =>
    rw [hup] at h
    simp only at h
    by_cases hc : ':' ∈ p.netloc.toList
    · rw [if_pos hc] at h
      cases hpi : pyInt ((splitOnChar ':' p.netloc.toList).getD 1 []) with
      | some v =>
        rw [hpi] at h
        simp only [Except.ok.injEq] at h
        subst h
        exact absurd hc hno
      | none => rw [hpi] at h; exact absurd h (by simp)
    · rw [if_neg hc] at h
      simp only [Except.ok.injEq] at h
      subst h
      rfl

/-- Port resolution of `__parse_url` with an explicit all-digit port
after the first `:` of the authority: its decimal value, regardless of
scheme. -/
theorem parseUrl_port_explicit (url : String) (site : Site)
    (hstr npart : String)
    (h : parseUrl url = .ok site)
    (hnl : site.netloc = hstr ++ ":" ++ npart)
    (hhs : ':' ∉ hstr.toList)
    (hne : npart ≠ "")
    (hd : ∀ c ∈ npart.toList, isDigitC c = true) :
    site.port = (natOfDigits npart.toList : Int) := by
  have hnpl : npart.toList ≠ [] := by
    intro hnil
    exact hne (String.ext hnil)
  have hnocolon : ':' ∉ npart.toList := by
    intro hmem
    have := hd ':' hmem
    simp [isDigitC] at this
  unfold parseUrl at h
  cases hup : urlparseE url with
  | error e => rw [hup] at h; exact absurd h (by simp)
  | ok p =>
    rw [hup] at h
    simp only at h
    have hpn : p.netloc = site.netloc := by
      by_cases hc : ':' ∈ p.netloc.toList
      · rw [if_pos hc] at h
        cases hpi : pyInt ((splitOnChar ':' p.netloc.toList).getD 1 []) with
        | some v =>
          rw [hpi] at h
          simp only [Except.ok.injEq] at h
          subst h
          rfl
        | none => rw [hpi] at h; exact absurd h (by simp)
      · rw [if_neg hc] at h
        simp only [Except.ok.injEq] at h
        subst h
        rfl
    have hlist : p.netloc.toList = hstr.toList ++ ':' :: npart.toList := by
      rw [hpn, hnl, toList_append, toList_append,
          show (":" : String).toList = [':'] from rfl]
      simp
    have hc : ':' ∈ p.netloc.toList := by
      rw [hlist]
      simp
    rw [if_pos hc] at h
    have hsplit : (splitOnChar ':' p.netloc.toList).getD 1 [] = npart.toList := by
      rw [hlist, splitOnChar_sep_append ':' hstr.toList npart.toList hhs,
          splitOnChar_no_sep ':' npart.toList hnocolon]
      rfl
    rw [hsplit, pyInt_digits npart.toList hnpl hd] at h
    simp only [Except.ok.injEq] at h
    subst h
    rfl

/-- Ids of the connections opened in an event trace. -/
def openIds (evs : List Event) : List Nat :=
  evs.filterMap (fun e => match e with | .openConn i => some i | _ => none)

/-- Ids of the connections closed in an event trace. -/
def closeIds (evs : List Event) : List Nat :=
  evs.filterMap (fun e => match e with | .closeConn i => some i | _ => none)

/-- Connection-lifecycle invariant of one fetch invocation starting at
fresh id `nid`: ids are fresh and bounded, the invocation's own
connection (when open) carries id `nid`, an escaping exception leaves no
events, and the closed connections are exactly the opened ones other
than the invocation's own — which stays open for the caller. -/
def TraceInv (nid : Nat) (out : FetchOut) : Prop :=
  nid ≤ out.nextId ∧
  (∀ i ∈ openIds out.evs, nid ≤ i ∧ i < out.nextId) ∧
  (∀ c, out.rootConn = some c → c = nid ∧ c ∈ openIds out.evs) ∧
  (∀ err, out.res = .error err → out.evs = [] ∧ out.rootConn = none) ∧
  (∀ i, i ∈ closeIds out.evs ↔ i ∈ openIds out.evs ∧ out.rootConn ≠ some i)

/-- Opened ids of a trace concatenation. -/
theorem openIds_append (a b : List Event) :
    openIds (a ++ b) = openIds a ++ openIds b := by
  simp [openIds]

/-- Closed ids of a trace concatenation. -/
theorem closeIds_append (a b : List Event) :
    closeIds (a ++ b) = closeIds a ++ closeIds b := by
  simp [closeIds]

/-- Opened ids of the open-and-send prefix of a cycle. -/
theorem openIds_ev0 (nid : Nat) (req : String) :
    openIds [Event.openConn nid, Event.sendReq nid req] = [nid] := by
  simp [openIds, List.filterMap]

/-- Closed ids of the open-and-send prefix of a cycle. -/
theorem closeIds_ev0 (nid : Nat) (req : String) :
    closeIds [Event.openConn nid, Event.sendReq nid req] = [] := by
  simp [closeIds, List.filterMap]

/-- Invariant for an eventless non-raising outcome. -/
theorem traceInv_simple (nid : Nat) (res : Except PyErr String)
    (hres : ∀ err, res ≠ .error err) :
    TraceInv nid ⟨res, [], nid, none⟩ := by
  unfold TraceInv
  dsimp only
  refine ⟨le_refl _, ?_, ?_, ?_, ?_⟩
  · intro i hi; simp [openIds] at hi
  · intro c hc; simp at hc
  · intro err herr; exact absurd herr (hres err)
  · intro i; simp [openIds, closeIds]

/-- Invariant for an escaping exception. -/
theorem traceInv_err (nid : Nat) (e : PyErr) :
    TraceInv nid ⟨.error e, [], nid, none⟩ := by
  unfold TraceInv
  dsimp only
  refine ⟨le_refl _, ?_, ?_, ?_, ?_⟩
  · intro i hi; simp [openIds] at hi
  · intro c hc; simp at hc
  · intro err _; exact ⟨rfl, rfl⟩
  · intro i; simp [openIds, closeIds]

/-- Invariant for a cycle ending without redirecting: its own
connection is opened, written to, and left open. -/
theorem traceInv_terminal (nid : Nat) (msg req : String) :
    TraceInv nid ⟨.ok msg, [Event.openConn nid, Event.sendReq nid req],
      nid + 1, some nid⟩ := by
  unfold TraceInv
  dsimp only
  refine ⟨Nat.le_succ _, ?_, ?_, ?_, ?_⟩
  · intro i hi
    rw [openIds_ev0] at hi
    simp at hi
    omega
  · intro c hc
    simp at hc
    subst hc
    rw [openIds_ev0]
    exact ⟨rfl, by simp⟩
  · intro err herr; exact absurd herr (by simp)
  · intro i
    rw [openIds_ev0, closeIds_ev0]
    simp
    intro hi
    simp [hi]

/-- What `handle_status` guarantees about its events: ids stay in
range, an escaping exception produces no events, and every connection
opened inside it is closed inside it (`redirect.close()` releases the
spawned website's connection after its result is obtained). -/
theorem handleStatusTr_post (recur : Nat → String → FetchOut)
    (hrec : ∀ n u, TraceInv n (recur n u)) (nid : Nat) (resp : String)
    (res' : Except PyErr String) (evs' : List Event) (nid2 : Nat)
    (heq : handleStatusTr recur nid resp = (res', evs', nid2)) :
    nid ≤ nid2 ∧
    (∀ i ∈ openIds evs', nid ≤ i ∧ i < nid2) ∧
    (∀ err, res' = .error err → evs' = []) ∧
    (∀ i, i ∈ closeIds evs' ↔ i ∈ openIds evs') := by
  unfold handleStatusTr at heq
  by_cases hred : redirectDetected resp = true
  · rw [if_pos hred] at heq
    cases hloc : getLocation resp with
    | none =>
      rw [hloc] at heq
      dsimp only at heq
      simp only [Prod.mk.injEq] at heq
      obtain ⟨rfl, rfl, rfl⟩ := heq
      refine ⟨le_refl _, ?_, ?_, ?_⟩ <;> simp [openIds, closeIds]
    | some loc =>
      rw [hloc] at heq
      dsimp only at heq
      by_cases hle : loc = ""
      · rw [if_pos hle] at heq
        simp only [Prod.mk.injEq] at heq
        obtain ⟨rfl, rfl, rfl⟩ := heq
        refine ⟨le_refl _, ?_, ?_, ?_⟩ <;> simp [openIds, closeIds]
      · rw [if_neg hle] at heq
        obtain ⟨h1, h2, h3, h4, h5⟩ := hrec nid loc
        cases hres : (recur nid loc).res with
        | error e =>
          rw [hres] at heq
          dsimp only at heq
          simp only [Prod.mk.injEq] at heq
          obtain ⟨rfl, rfl, rfl⟩ := heq
          obtain ⟨hevnil, _⟩ := h4 e hres
          rw [hevnil]
          refine ⟨h1, ?_, ?_, ?_⟩ <;> simp [openIds, closeIds]
        | ok s =>
          rw [hres] at heq
          dsimp only at heq
          cases hroot : (recur nid loc).rootConn with
          | some c =>
            rw [hroot] at heq
            dsimp only at heq
            simp only [Prod.mk.injEq] at heq
            obtain ⟨rfl, rfl, rfl⟩ := heq
            obtain ⟨hcnid, hcopen⟩ := h3 c hroot
            refine ⟨h1, ?_, ?_, ?_⟩
            · intro i hi
              rw [openIds_append] at hi
              rcases List.mem_append.mp hi with hi | hi
              · exact h2 i hi
              · simp [openIds] at hi
            · intro err herr; exact absurd herr (by simp)
            · intro i
              rw [openIds_append, closeIds_append]
              have hop : openIds [Event.closeConn c] = [] := by
                simp [openIds]
              have hcl : closeIds [Event.closeConn c] = [c] := by
                simp [closeIds]
              rw [hop, hcl, List.append_nil]
              constructor
              · intro hi
                rcases List.mem_append.mp hi with hi | hi
                · exact ((h5 i).mp hi).1
                · simp at hi
                  subst hi
                  exact hcopen
              · intro hi
                by_cases hic : i = c
                · subst hic; simp
                · refine List.mem_append.mpr (Or.inl ?_)
                  refine (h5 i).mpr ⟨hi, ?_⟩
                  rw [hroot]
                  intro hcon
                  exact hic (Option.some.inj hcon).symm
          | none =>
            rw [hroot] at heq
            dsimp only at heq
            simp only [Prod.mk.injEq] at heq
            obtain ⟨rfl, rfl, rfl⟩ := heq
            refine ⟨h1, h2, ?_, ?_⟩
            · intro err herr; exact absurd herr (by simp)
            · intro i
              rw [h5 i, hroot]
              simp
  · rw [if_neg hred] at heq
    simp only [Prod.mk.injEq] at heq
    obtain ⟨rfl, rfl, rfl⟩ := heq
    refine ⟨le_refl _, ?_, ?_, ?_⟩ <;> simp [openIds, closeIds]

/-- Invariant for a cycle that ran `handle_status`: its own connection
remains open; the redirect's connections are self-contained. -/
theorem traceInv_withPost (nid nid2 : Nat) (msg req : String)
    (evs' : List Event) (hle : nid + 1 ≤ nid2)
    (hbound : ∀ i ∈ openIds evs', nid + 1 ≤ i ∧ i < nid2)
    (hcl : ∀ i, i ∈ closeIds evs' ↔ i ∈ openIds evs') :
    TraceInv nid ⟨.ok msg,
      [Event.openConn nid, Event.sendReq nid req] ++ evs', nid2, some nid⟩ := by
  unfold TraceInv
  dsimp only
  refine ⟨by omega, ?_, ?_, ?_, ?_⟩
  · intro i hi
    rw [openIds_append, openIds_ev0] at hi
    rcases List.mem_append.mp hi with hi | hi
    · simp at hi
      omega
    · have := hbound i hi
      omega
  · intro c hc
    have hcn : c = nid := (Option.some.inj hc).symm
    subst hcn
    refine ⟨rfl, ?_⟩
    rw [openIds_append, openIds_ev0]
    simp
  · intro err herr; exact absurd herr (by simp)
  · intro i
    rw [openIds_append, openIds_ev0, closeIds_append, closeIds_ev0,
        List.nil_append]
    constructor
    · intro hi
      have hio := (hcl i).mp hi
      have hge := (hbound i hio).1
      refine ⟨List.mem_append.mpr (Or.inr hio), ?_⟩
      intro hcon
      have : nid = i := Option.some.inj hcon
      omega
    · rintro ⟨hi, hne⟩
      rcases List.mem_append.mp hi with hi | hi
      · simp at hi
        subst hi
        exact absurd rfl hne
      · exact (hcl i).mpr hi

/-- One construction-plus-`get_html` cycle preserves the
connection-lifecycle invariant. -/
theorem fetchStepTr_inv (env : Env) (recur : Nat → String → FetchOut)
    (hrec : ∀ n u, TraceInv n (recur n u)) (nid : Nat) (url : String) :
    TraceInv nid (fetchStepTr env recur nid url) := by
  unfold fetchStepTr
  cases hp : parseUrl url with
  | error e => dsimp only; exact traceInv_err nid e
  | ok site =>
    dsimp only
    cases hm : mkConn site (env url) with
    | error e => dsimp only; exact traceInv_err nid e
    | ok conn =>
      dsimp only
      unfold getHtmlTr
      cases conn with
      | none =>
        dsimp only
        exact traceInv_simple nid (.ok connErrMsg) (fun err => by simp)
      | some c =>
        dsimp only
        by_cases hre : (env url).readError = true
        · rw [if_pos hre]
          dsimp only
          exact traceInv_terminal nid recvErrMsg (requestOf site)
        · rw [if_neg hre]
          cases hrb : readBody (env url).chunks with
          | encodingError =>
            dsimp only
            exact traceInv_terminal nid unknownEncMsg (requestOf site)
          | unbound =>
            dsimp only
            exact traceInv_terminal nid recvErrMsg (requestOf site)
          | ok r =>
            dsimp only
            by_cases hrnil : r = []
            · rw [if_pos hrnil]
              dsimp only
              exact traceInv_terminal nid emptyMsg (requestOf site)
            · rw [if_neg hrnil]
              cases hhs : handleStatusTr recur (nid + 1) (cpToString r) with
              | mk res' rest =>
                cases rest with
                | mk evs' nid2 =>
                  obtain ⟨hle, hbound, herrnil, hcl⟩ :=
                    handleStatusTr_post recur hrec (nid + 1) (cpToString r)
                      res' evs' nid2 (by rw [hhs])
                  cases res' with
                  | error e =>
                    dsimp only
                    exact traceInv_withPost nid nid2 recvErrMsg
                      (requestOf site) evs' hle hbound hcl
                  | ok s =>
                    dsimp only
                    exact traceInv_withPost nid nid2 s
                      (requestOf site) evs' hle hbound hcl

/-- The fetch pipeline satisfies the connection-lifecycle invariant at
every fuel and fresh id. -/
theorem fetchTr_inv (env : Env) :
    ∀ (fuel nid : Nat) (url : String), TraceInv nid (fetchTr env fuel nid url) := by
  intro fuel
  induction fuel with
  | zero =>
    intro nid url
    exact fetchStepTr_inv env _ (fun n u => traceInv_err n .recursionError) nid url
  | succ f ih =>
    intro nid url
    exact fetchStepTr_inv env _ (fun n u => ih n u) nid url

/-! ### Concrete environments used to exercise the pipeline -/

/-- An environment where every connection succeeds and the peer closes
the stream immediately, delivering zero bytes. -/
def envIdle : Env := fun _ => ⟨true, false, [], false⟩

/-- A fetch cycle returns `.ok` whenever the URL parses, the resolved
port is in socket range and the hostname's idna encoding does not
raise. -/
theorem fetchStepTr_ok (env : Env) (recur : Nat → String → FetchOut)
    (nid : Nat) (url : String) (site : Site)
    (hp : parseUrl url = .ok site) (h0 : 0 ≤ site.port)
    (h1 : site.port ≤ 65535)
    (hw : (env url).hostEncodeError = false) :
    ∃ s, (fetchStepTr env recur nid url).res = .ok s := by
  unfold fetchStepTr
  rw [hp]
  dsimp only
  have hmk : ∃ conn, mkConn site (env url) = .ok conn := by
    unfold mkConn
    have hnot1 : ¬ (env url).hostEncodeError = true := by
      rw [hw]
      exact Bool.false_ne_true
    rw [if_neg hnot1]
    have hnot2 : ¬ (site.port < 0 ∨ 65535 < site.port) := by omega
    rw [if_neg hnot2]
    by_cases hc : (env url).connectOk
    · rw [if_pos hc]; exact ⟨_, rfl⟩
    · rw [if_neg hc]; exact ⟨_, rfl⟩
  obtain ⟨conn, hconn⟩ := hmk
  rw [hconn]
  dsimp only
  cases hg : getHtmlTr recur (env url) site conn nid with
  | mk s rest =>
    cases rest with
    | mk evs rest2 =>
      cases rest2 with
      | mk nid2 root =>
        dsimp only
        exact ⟨s, rfl⟩

/-! ### C1 — the fetch entry point and exceptions -/

/-- Claim C1, counterexample: on the URL `http://h:x`, whose authority
contains a `:` followed by non-numeric text, the fetch entry point does
not return an error string — `int("x")` inside `__parse_url` raises
`ValueError`, which nothing in `Website.__init__` catches, so the
exception propagates to the caller. -/
theorem c1_counterexample :
    fetch envIdle 3 "http://h:x" = .error .valueError := by decide

/-- Claim C1, amended: the fetch entry point returns a string for every
ASCII, bracket-free URL whose parse succeeds (in particular, any
explicit port text parses as an integer), whose resolved port lies
within 0–65535 (otherwise `connect` raises an uncaught
`OverflowError`), and whose hostname's idna encoding does not fail —
that encoding runs at the TLS wrap for port 443 and at `connect`'s
address conversion at every port, and its failure is not a
`socket.error`, so it escapes `__init__` uncaught; on such URLs no
exception propagates, for every network behaviour and redirect depth.
The ASCII and bracket-free restrictions keep the statement within the
modelled fragment of `urlparse`: CPython 3.12 additionally raises
`ValueError` for bracketed authorities whose content is not an IPv6
or IPvFuture address, and for some non-ASCII authorities
(`_checknetloc`), neither of which this embedding models. -/
theorem c1_amended (env : Env) (fuel : Nat) (url : String) (site : Site)
    (_hascii : ∀ c ∈ url.toList, c.toNat < 128)
    (_hbr : '[' ∉ url.toList ∧ ']' ∉ url.toList)
    (hp : parseUrl url = .ok site) (h0 : 0 ≤ site.port)
    (h1 : site.port ≤ 65535)
    (hw : (env url).hostEncodeError = false) :
    ∃ s, fetch env fuel url = .ok s := by
  unfold fetch
  cases fuel with
  | zero => exact fetchStepTr_ok env _ 0 url site hp h0 h1 hw
  | succ f => exact fetchStepTr_ok env _ 0 url site hp h0 h1 hw

/-- Witness for C1 amended: the plain URL `http://e/` parses to port 80
and fetches to a string. -/
theorem c1_amended_witness : ∃ s, fetch envIdle 1 "http://e/" = .ok s :=
  c1_amended envIdle 1 "http://e/"
    ⟨⟨"http", "e", "/", "", "", ""⟩, "http", "e", "e", 80, "/"⟩
    (by decide) (by decide) (by decide) (by decide) (by decide) (by decide)

/-! ### C2 — the zero-byte response -/

/-- Claim C2: with a connection established and a stream that closes
after zero bytes, `get_html` does *not* return the empty-response
fragment.  The loop breaks before ever assigning `response`, the
`if not response:` test raises `UnboundLocalError`, the blanket
`except Exception` catches it, and the generic receive-error fragment is
returned instead — the empty-response branch on line 94 is dead code. -/
theorem c2_zero_byte_response :
    fetch envIdle 1 "http://h/" = .ok "<p>Error receiving data.</p>" ∧
    ("<p>Error receiving data.</p>" : String) ≠
      "<p>Error: Empty response from the server.</p>" := by decide

/-! ### C3 — UTF-8 responses and the decoder choice -/

/-- Claim C3, counterexample: the byte stream `EF BF BD` is valid UTF-8
(the encoding of U+FFFD itself), yet the reader rejects the UTF-8
candidate — whose decode is exactly the replacement character the
selection test looks for — and falls through to Latin-1, returning the
Latin-1 projection instead of the UTF-8 projection. -/
theorem c3_counterexample :
    utf8ValidB [0xEF, 0xBF, 0xBD] = true ∧
    readBody [[0xEF, 0xBF, 0xBD]] = .ok (decodeLatin1 [0xEF, 0xBF, 0xBD]) ∧
    decodeLatin1 [0xEF, 0xBF, 0xBD] ≠ utf8DecodeReplace [0xEF, 0xBF, 0xBD] := by
  decide

/-- Claim C3, amended: for every nonempty chunk sequence in which each
chunk's UTF-8 replace-decode contains no U+FFFD (so the stream is valid
UTF-8, no multi-byte character straddles a chunk boundary, and the text
itself contains no U+FFFD), the reader selects the UTF-8 decoding and
returns the UTF-8 projection of the full byte stream, never falling
through to a later candidate. -/
theorem c3_amended (chunks : List (List Nat)) (hne : chunks ≠ [])
    (hcl : ∀ c ∈ chunks, 0xFFFD ∉ utf8DecodeReplace c) :
    readBody chunks = .ok (utf8DecodeReplace chunks.flatten) := by
  have hu : 0xFFFD ∉ uAcc chunks := by
    intro hmem
    unfold uAcc at hmem
    rw [List.mem_flatten] at hmem
    obtain ⟨l, hl, hml⟩ := hmem
    rw [List.mem_map] at hl
    obtain ⟨c, hc, rfl⟩ := hl
    exact hcl c hc hml
  have := readLoop_clean chunks [] [] none (by simp) hcl hne
  unfold readBody
  rw [this, List.nil_append, uAcc_clean_eq_join chunks hu]

/-- Witness for C3 amended: the ASCII chunk `Hi` is selected under
UTF-8. -/
theorem c3_amended_witness :
    readBody [[0x48, 0x69]] =
      .ok (utf8DecodeReplace ([[0x48, 0x69]] : List (List Nat)).flatten) :=
  c3_amended [[0x48, 0x69]] (by decide) (by decide)

/-! ### C4 — per-chunk accumulation versus whole-buffer decoding -/

/-- Claim C4, counterexample: the same byte stream `C3 A9` (the UTF-8
encoding of `é`) yields different outputs under different chunk
segmentations — delivered whole it is selected under UTF-8, split at
the character boundary the per-chunk decode inserts replacement
characters and Latin-1 is selected — so the incremental accumulation is
not equivalent to a re-decode of the whole buffer for every
segmentation. -/
theorem c4_counterexample :
    readBody [[0xC3, 0xA9]] = .ok [0xE9] ∧
    readBody [[0xC3], [0xA9]] = .ok [0xC3, 0xA9] ∧
    ([[0xC3, 0xA9]] : List (List Nat)).flatten =
      ([[0xC3], [0xA9]] : List (List Nat)).flatten ∧
    ([0xE9] : List Nat) ≠ [0xC3, 0xA9] := by decide

/-- Claim C4, amended: for the chunk segmentation actually received,
any final output of the reader does equal a full decoding of the entire
accumulated buffer under one fixed encoding — the UTF-8 projection
(when the accumulated UTF-8 candidate is clean, per-chunk accumulation
coincides with a whole-buffer decode) or the Latin-1/ISO-8859-1
projection (bytewise, so trivially segmentation-independent); but the
selected encoding, and hence the output, can differ between
segmentations of the same byte stream. -/
theorem c4_amended (chunks : List (List Nat)) (r : List Nat)
    (h : readBody chunks = .ok r) :
    r = utf8DecodeReplace chunks.flatten ∨ r = decodeLatin1 chunks.flatten := by
  have := readLoop_ok_shape chunks [] [] none r (Or.inl rfl) h
  rcases this with ⟨hr, hcl⟩ | hr
  · rw [List.nil_append] at hr hcl
    exact Or.inl (by rw [hr, uAcc_clean_eq_join chunks hcl])
  · rw [List.nil_append] at hr
    exact Or.inr hr

/-- Witness for C4 amended at a one-chunk ASCII stream. -/
theorem c4_amended_witness :
    readBody [[0x61]] = .ok [0x61] ∧
    (([0x61] : List Nat) = utf8DecodeReplace ([[0x61]] : List (List Nat)).flatten ∨
     ([0x61] : List Nat) = decodeLatin1 ([[0x61]] : List (List Nat)).flatten) :=
  ⟨by decide, c4_amended [[0x61]] [0x61] (by decide)⟩

/-! ### C5 — redirect detection and resolution -/

/-- A 200 response whose *body* happens to contain the 301 status text:
used to separate "status line indicates a redirect" from the
substring-anywhere matching the source actually performs. -/
def respEcho : String := "HTTP/1.1 200 OK\r\n\r\nHTTP/1.1 301 Moved Permanently"

/-- An environment whose every response is `respEcho`. -/
def envEcho : Env := fun _ => ⟨true, false, [strToBytes respEcho], false⟩

/-- Claim C5, counterexample: a response whose status line is
`HTTP/1.1 200 OK` — not a redirect status — but whose body quotes the
literal 301 status text is *not* returned unchanged: `handle_status`
matches the redirect strings anywhere in the response, finds no
`Location` header, and `fetch` returns the no-location error fragment
instead of the response. -/
theorem c5_counterexample :
    (splitCRLF respEcho.toList).headD [] = "HTTP/1.1 200 OK".toList ∧
    (fetchTr envEcho 2 0 "http://c/").res =
      .ok "<p>Error: No new location provided.</p>" ∧
    ("<p>Error: No new location provided.</p>" : String) ≠ respEcho := by
  decide

/-- Claim C5, amended: the status handler treats a response as a
redirect exactly when one of the literal case-sensitive strings
`HTTP/1.1 301 Moved Permanently` or `HTTP/1.1 302 Found` occurs
*anywhere* in the decoded response (substring match, not anchored to the
status line, and no other 3xx codes); a non-matching response is
returned unchanged with no connection activity; a matching response
without a usable `Location` line (found by case-insensitive `location:`
prefix scan over CRLF-split lines, value taken after the first colon
and stripped) yields the no-location error; and a matching response
with a nonempty location makes the handler's result exactly the result
of the full fetch pipeline invoked on that location. -/
theorem c5_amended (env : Env) (f nid : Nat) (resp : String) :
    (redirectDetected resp = false →
      handleStatusTr (fetchTr env f) nid resp = (.ok resp, [], nid)) ∧
    (redirectDetected resp = true → getLocation resp = none →
      handleStatusTr (fetchTr env f) nid resp = (.ok noLocMsg, [], nid)) ∧
    (redirectDetected resp = true → ∀ loc, getLocation resp = some loc →
      loc ≠ "" →
      (handleStatusTr (fetchTr env f) nid resp).1 =
        (fetchTr env f nid loc).res) := by
  refine ⟨?_, ?_, ?_⟩
  · intro hred
    unfold handleStatusTr
    rw [hred]
    rfl
  · intro hred hloc
    unfold handleStatusTr
    rw [hred, hloc]
    rfl
  · intro hred loc hloc hne
    unfold handleStatusTr
    rw [hred, hloc]
    dsimp only
    rw [if_neg hne]
    try dsimp only
    cases hres : (fetchTr env f nid loc).res with
    | error e => rfl
    | ok s =>
      cases hroot : (fetchTr env f nid loc).rootConn with
      | some c => rfl
      | none => rfl

/-- A 301 response carrying a `Location` header, for the C5 witness. -/
def respMoved : String :=
  "HTTP/1.1 301 Moved Permanently\r\nLocation: http://b/\r\n\r\n"

/-- Witness for C5 amended: all three cases at concrete responses —
a plain response passes through, the echoing 200 response yields the
no-location error, and a real 301 hands its result over to the
recursive fetch of `http://b/`. -/
theorem c5_amended_witness :
    handleStatusTr (fetchTr envIdle 1) 7 "hello" = (.ok "hello", [], 7) ∧
    handleStatusTr (fetchTr envIdle 1) 7 respEcho = (.ok noLocMsg, [], 7) ∧
    (handleStatusTr (fetchTr envIdle 1) 7 respMoved).1 =
      (fetchTr envIdle 1 7 "http://b/").res :=
  ⟨(c5_amended envIdle 1 7 "hello").1 (by decide),
   (c5_amended envIdle 1 7 respEcho).2.1 (by decide) (by decide),
   (c5_amended envIdle 1 7 respMoved).2.2 (by decide) "http://b/"
     (by decide) (by decide)⟩

/-! ### C6 — port resolution -/

/-- Claim C6: for every URL whose parse succeeds, the resolved port is
443 exactly when the scheme is `https` and 80 otherwise whenever the
authority carries no `:`; and when the authority is
`host:digits` (colon-free host, nonempty all-digit port text), the
resolved port is that number, overriding the default regardless of
scheme. -/
theorem c6_port_resolution (url : String) (site : Site)
    (hp : parseUrl url = .ok site) :
    (':' ∉ site.netloc.toList →
      site.port = (if site.scheme = "https" then (443 : Int) else 80)) ∧
    (∀ hstr npart : String, site.netloc = hstr ++ ":" ++ npart →
      ':' ∉ hstr.toList → npart ≠ "" →
      (∀ c ∈ npart.toList, isDigitC c = true) →
      site.port = (natOfDigits npart.toList : Int)) :=
  ⟨fun hno => parseUrl_port_default url site hp hno,
   fun hstr npart hnl hhs hne hd =>
     parseUrl_port_explicit url site hstr npart hp hnl hhs hne hd⟩

/-- Witness for C6: `https://e/` resolves to 443, `http://e/` to 80,
and the explicit suffix of `http://e:8080/` overrides to 8080. -/
theorem c6_port_resolution_witness :
    (∃ s, parseUrl "https://e/" = .ok s ∧ s.port = 443) ∧
    (∃ s, parseUrl "http://e/" = .ok s ∧ s.port = 80) ∧
    (∃ s, parseUrl "http://e:8080/" = .ok s ∧ s.port = 8080) := by
  refine ⟨⟨⟨⟨"https", "e", "/", "", "", ""⟩, "https", "e", "e", 443, "/"⟩,
           by decide, ?_⟩,
          ⟨⟨⟨"http", "e", "/", "", "", ""⟩, "http", "e", "e", 80, "/"⟩,
           by decide, ?_⟩,
          ⟨⟨⟨"http", "e:8080", "/", "", "", ""⟩, "http", "e:8080", "e",
            8080, "/"⟩, by decide, ?_⟩⟩
  · exact (c6_port_resolution "https://e/" _ (by decide)).1 (by decide)
  · exact (c6_port_resolution "http://e/" _ (by decide)).1 (by decide)
  · exact (c6_port_resolution "http://e:8080/" _ (by decide)).2 "e" "8080"
      rfl (by decide) (by decide) (by decide)

/-! ### C7 — the TLS decision -/

/-- The socket wrapper produced by a successful connect carries the TLS
flag decided by the resolved port alone. -/
theorem mkConn_some_shape (site : Site) (nb : NetBehavior) (c : Conn)
    (h : mkConn site nb = .ok (some c)) :
    c = ⟨decide (site.port = 443), false⟩ := by
  unfold mkConn at h
  by_cases h1 : nb.hostEncodeError = true
  · rw [if_pos h1] at h; exact absurd h (by simp)
  · rw [if_neg h1] at h
    by_cases h2 : site.port < 0 ∨ 65535 < site.port
    · rw [if_pos h2] at h; exact absurd h (by simp)
    · rw [if_neg h2] at h
      by_cases h3 : nb.connectOk = true
      · rw [if_pos h3] at h
        simp only [Except.ok.injEq, Option.some.injEq] at h
        exact h.symm
      · rw [if_neg h3] at h
        simp at h

/-- Claim C7: a successfully established connection is wrapped in TLS
exactly when the resolved port equals 443 — the decision is a function
of the port alone, independent of the scheme string (any two sites with
equal ports get identical wrappers under the same network behaviour) —
and the TLS session never verifies the certificate chain or hostname
(`ssl._create_unverified_context`). -/
theorem c7_tls_keyed_on_port (site : Site) (nb : NetBehavior) (c : Conn)
    (h : mkConn site nb = .ok (some c)) :
    (c.tls = true ↔ site.port = 443) ∧
    c.verifiesCert = false ∧
    (∀ site2 c2, site2.port = site.port →
      mkConn site2 nb = .ok (some c2) → c2 = c) := by
  have hc := mkConn_some_shape site nb c h
  subst hc
  refine ⟨by simp, rfl, ?_⟩
  intro site2 c2 hport h2
  have h2c := mkConn_some_shape site2 nb c2 h2
  rw [h2c, hport]

/-- The parse of `http://h:443/`: an `http` URL with explicit port
443. -/
def siteHttp443 : Site :=
  ⟨⟨"http", "h:443", "/", "", "", ""⟩, "http", "h:443", "h", 443, "/"⟩

/-- The parse of `https://h:8443/`: an `https` URL with explicit
non-443 port. -/
def siteHttps8443 : Site :=
  ⟨⟨"https", "h:8443", "/", "", "", ""⟩, "https", "h:8443", "h", 8443, "/"⟩

/-- The network behaviour used by concrete connection witnesses. -/
def nbIdle : NetBehavior := ⟨true, false, [], false⟩

/-- Witness for C7: the `http` URL with explicit port 443 gets a
TLS-wrapped, non-verifying socket; the `https` URL with port 8443 gets
a plain one. -/
theorem c7_tls_witness :
    parseUrl "http://h:443/" = .ok siteHttp443 ∧
    parseUrl "https://h:8443/" = .ok siteHttps8443 ∧
    (Conn.mk true false).tls = true ∧
    (Conn.mk true false).verifiesCert = false ∧
    ¬ (Conn.mk false false).tls = true := by
  have h443 := c7_tls_keyed_on_port siteHttp443 nbIdle ⟨true, false⟩ (by decide)
  have h8443 :=
    c7_tls_keyed_on_port siteHttps8443 nbIdle ⟨false, false⟩ (by decide)
  refine ⟨by decide, by decide, h443.1.mpr (by decide), h443.2.1, fun ht => ?_⟩
  exact absurd (h8443.1.mp ht) (by decide)

/-! ### C8 — the request bytes on the wire -/

/-- Every branch of `get_html` past a live connection records the
write of exactly `requestOf site` on that connection. -/
theorem getHtmlTr_send (recur : Nat → String → FetchOut)
    (nb : NetBehavior) (site : Site) (cn : Conn) (nid : Nat) :
    Event.sendReq nid (requestOf site) ∈
      (getHtmlTr recur nb site (some cn) nid).2.1 := by
  unfold getHtmlTr
  dsimp only
  by_cases hre : nb.readError = true
  · rw [if_pos hre]; simp
  · rw [if_neg hre]
    cases readBody nb.chunks with
    | encodingError => simp
    | unbound => simp
    | ok r =>
      dsimp only
      by_cases hr : r = []
      · rw [if_pos hr]; simp
      · rw [if_neg hr]
        cases hhs : handleStatusTr recur (nid + 1) (cpToString r) with
        | mk res' rest =>
          cases rest with
          | mk evs' nid2 =>
            cases res' <;> simp

/-- Claim C8: the bytes written to an established connection are
exactly `GET {path} HTTP/1.1`, a `Host` header, a `Connection: close`
header and the blank line — nothing else — where the path is the
parsed URL path alone with `/` substituted when empty; the request is
independent of the concatenated request-target `cmd`, which is computed
but never used; and every pipeline cycle with a live connection sends
precisely this request. -/
theorem c8_request_framing (url : String) (site : Site)
    (hp : parseUrl url = .ok site) :
    requestOf site =
      "GET " ++ (if site.parsed.path = "" then "/" else site.parsed.path) ++
      " HTTP/1.1\r\nHost: " ++ site.host ++ "\r\nConnection: close\r\n\r\n" ∧
    (∀ c : String, requestOf { site with cmd := c } = requestOf site) ∧
    (∀ (env : Env) (fuel nid : Nat) (cn : Conn),
      mkConn site (env url) = .ok (some cn) →
      Event.sendReq nid (requestOf site) ∈ (fetchTr env fuel nid url).evs) := by
  refine ⟨rfl, fun c => rfl, ?_⟩
  intro env fuel nid cn hmk
  have hstep : ∀ recur, Event.sendReq nid (requestOf site) ∈
      (fetchStepTr env recur nid url).evs := by
    intro recur
    unfold fetchStepTr
    rw [hp]
    dsimp only
    rw [hmk]
    dsimp only
    cases hg : getHtmlTr recur (env url) site (some cn) nid with
    | mk s rest =>
      cases rest with
      | mk evs rest2 =>
        cases rest2 with
        | mk nid2 root =>
          dsimp only
          have hsend := getHtmlTr_send recur (env url) site cn nid
          rw [hg] at hsend
          exact hsend
  cases fuel with
  | zero => exact hstep _
  | succ f => exact hstep _

/-- Witness for C8: for `http://h/p?q=1` the request line carries the
path `/p` while the dead `cmd` field holds the separator-less
concatenation `/pq=1`. -/
theorem c8_request_framing_witness :
    ∃ s, parseUrl "http://h/p?q=1" = .ok s ∧
      requestOf s = "GET /p HTTP/1.1\r\nHost: h\r\nConnection: close\r\n\r\n" ∧
      s.cmd = "/pq=1" := by
  refine ⟨⟨⟨"http", "h", "/p", "", "q=1", ""⟩, "http", "h", "h", 80, "/pq=1"⟩,
    by decide, ?_, by decide⟩
  exact ((c8_request_framing "http://h/p?q=1" _ (by decide)).1).trans (by decide)

/-! ### C9 — connection lifecycle across redirects -/

/-- A 200 response with a short body, served by the redirect target. -/
def respOkBody : String := "HTTP/1.1 200 OK\r\n\r\nok"

/-- An environment where `http://a/` answers with a 301 redirect to
`http://b/`, which answers 200. -/
def envRedirect : Env := fun url =>
  if url = "http://a/" then ⟨true, false, [strToBytes respMoved], false⟩
  else if url = "http://b/" then ⟨true, false, [strToBytes respOkBody], false⟩
  else ⟨false, false, [], false⟩

/-- Claim C9, counterexample: following the redirect from `http://a/`
to `http://b/`, the connection used for the redirecting response
(id 0) is *never* closed within the fetch — the trace opens 0, opens 1,
and closes only 1 (the `redirect.close()` of the spawned website) —
so the redirecting connection is neither closed before nor immediately
after the target connection is opened, and it is still open when the
fetch returns its terminal result. -/
theorem c9_counterexample :
    (fetchTr envRedirect 2 0 "http://a/").res = .ok respOkBody ∧
    (fetchTr envRedirect 2 0 "http://a/").evs =
      [Event.openConn 0,
       Event.sendReq 0 "GET / HTTP/1.1\r\nHost: a\r\nConnection: close\r\n\r\n",
       Event.openConn 1,
       Event.sendReq 1 "GET / HTTP/1.1\r\nHost: b\r\nConnection: close\r\n\r\n",
       Event.closeConn 1] ∧
    Event.closeConn 0 ∉ (fetchTr envRedirect 2 0 "http://a/").evs := by
  decide

/-- Claim C9, amended: within one fetch cycle the connections closed
are exactly the connections opened *except* the cycle's own root
connection: every connection spawned for a redirect target is closed by
its spawner after the recursive result is obtained, while the
redirecting (root) connection of the cycle stays open across the whole
recursive fetch and is left for the cycle's caller to release. -/
theorem c9_amended (env : Env) (fuel nid : Nat) (url : String) :
    (∀ i, i ∈ closeIds (fetchTr env fuel nid url).evs ↔
      (i ∈ openIds (fetchTr env fuel nid url).evs ∧
       (fetchTr env fuel nid url).rootConn ≠ some i)) ∧
    (∀ c, (fetchTr env fuel nid url).rootConn = some c →
      c = nid ∧ c ∈ openIds (fetchTr env fuel nid url).evs) := by
  obtain ⟨h1, h2, h3, h4, h5⟩ := fetchTr_inv env fuel nid url
  exact ⟨h5, h3⟩

/-- Witness for C9 amended: in the concrete redirect chain the spawned
connection 1 is closed. -/
theorem c9_amended_witness :
    1 ∈ closeIds (fetchTr envRedirect 2 0 "http://a/").evs :=
  ((c9_amended envRedirect 2 0 "http://a/").1 1).mpr ⟨by decide, by decide⟩

/-! ### C10 — Latin-1 never needs replacement -/

/-- Claim C10: decoding any nonempty chunk of genuine bytes under
Latin-1 in replacement mode never produces U+FFFD, so the Latin-1
candidate is accepted whenever the UTF-8 candidate is rejected: the
ISO-8859-1 fallback guard (which tests the Latin-1 accumulation for
U+FFFD) never fires, the all-candidates-dirty branch returning the
unknown-encoding fragment is unreachable, and whenever the UTF-8
accumulation was rejected the selected output is the Latin-1
projection. -/
theorem c10_latin1_never_replacement :
    (∀ bs : List Nat, bs ≠ [] → (∀ x ∈ bs, x < 256) →
      0xFFFD ∉ decodeLatin1 bs) ∧
    (∀ chunks : List (List Nat), (∀ c ∈ chunks, ∀ x ∈ c, x < 256) →
      readBody chunks ≠ .encodingError) ∧
    (∀ chunks r, readBody chunks = .ok r → 0xFFFD ∈ uAcc chunks →
      r = decodeLatin1 chunks.flatten) := by
  refine ⟨?_, ?_, ?_⟩
  · intro bs _ hb hmem
    have := hb _ hmem
    omega
  · intro chunks hv
    unfold readBody
    exact readLoop_ne_encodingError chunks [] [] none (by simp) hv
  · intro chunks r hok hmem
    have hshape := readLoop_ok_shape chunks [] [] none r (Or.inl rfl) hok
    rcases hshape with ⟨hr, hcl⟩ | hr
    · rw [List.nil_append] at hcl
      exact absurd hmem hcl
    · rw [List.nil_append] at hr
      exact hr

/-- Witness for C10 at a one-byte chunk. -/
theorem c10_witness :
    readBody [[0x41]] ≠ .encodingError ∧ 0xFFFD ∉ decodeLatin1 [0x41] :=
  ⟨c10_latin1_never_replacement.2.1 [[0x41]] (by decide),
   c10_latin1_never_replacement.1 [0x41] (by decide) (by decide)⟩

end Browrooms
